import Mathlib

/-!
Verification of the BioMonteCarlo photon-transport engine.

The definitions below are a shallow embedding of the Python source:
`mesh.py` (LayeredMesh), `photon.py` (Photon), `henyey_greenstein.py`
(the Henyey-Greenstein angle sampler) and `simulation.py`
(MonteCarloSimulator.run).  Python floats are modelled as real numbers
(rationals where the code is purely order-theoretic), Python lists as
`List`, dictionaries as association lists, the global numpy random
stream as an explicit stream of uniform draws consumed by an index
counter, and runtime errors (IndexError / KeyError / ValueError) as
`Option`/`Except` failures.
-/

namespace BioMonteCarlo

/-- Python list indexing: a possibly negative index `i` addresses a list of
length `len`; negative indices count from the end; an out-of-range index is
an `IndexError`, modelled as `none`. -/
def pyIdx (len : ℕ) (i : Int) : Option ℕ :=
  if 0 ≤ i then
    if i < (len : Int) then some i.toNat else none
  else
    if 0 ≤ (len : Int) + i then some ((len : Int) + i).toNat else none

/-- Python `l[i]` (read). -/
def pyGet {β : Type*} (l : List β) (i : Int) : Option β :=
  (pyIdx l.length i).bind l.get?

/-- Python `l[i] = b` (write); returns the updated list or `none` for an
`IndexError`. -/
def pySet {β : Type*} (l : List β) (i : Int) (b : β) : Option (List β) :=
  (pyIdx l.length i).map (fun j => l.set j b)

theorem pyGet_mem {β : Type*} {l : List β} {i : Int} {x : β}
    (h : pyGet l i = some x) : x ∈ l := by
  unfold pyGet at h
  obtain ⟨j, hj, hx⟩ := Option.bind_eq_some.mp h
  exact List.get?_mem hx

theorem pyGet_nonneg_lt {β : Type*} (l : List β) (i : ℕ) (hi : i < l.length) :
    pyGet l (i : Int) = l.get? i := by
  unfold pyGet pyIdx
  have h0 : (0 : Int) ≤ (i : Int) := Int.ofNat_nonneg i
  have h1 : (i : Int) < (l.length : Int) := by exact_mod_cast hi
  simp [h0, h1]

theorem pySet_nonneg_lt {β : Type*} (l : List β) (i : ℕ) (hi : i < l.length) (b : β) :
    pySet l (i : Int) b = some (l.set i b) := by
  unfold pySet pyIdx
  have h0 : (0 : Int) ≤ (i : Int) := Int.ofNat_nonneg i
  have h1 : (i : Int) < (l.length : Int) := by exact_mod_cast hi
  simp [h0, h1]

/-! ## LayeredMesh (`mesh.py`) -/

/-- Key of the refractive-index field of a layer-property dictionary. -/
def key_n : String := "n"

/-- Key of the scattering-coefficient field. -/
def key_mu_s : String := "mu_s"

/-- Key of the absorption-coefficient field. -/
def key_mu_a : String := "mu_a"

/-- Key of the anisotropy field. -/
def key_g : String := "g"

/-- The four required property keys checked by `add_layer`. -/
def requiredKeys : List String := [key_n, key_mu_s, key_mu_a, key_g]

/-- A Python dictionary from string keys to numeric values, as an
association list. -/
abbrev PropsDict (α : Type*) := List (String × α)

/-- Python `key in properties`. -/
def hasKey {α : Type*} (d : PropsDict α) (k : String) : Bool :=
  d.any (fun p => p.1 == k)

/-- Python `properties[key]`: `none` models a `KeyError`. -/
def dictGet {α : Type*} (d : PropsDict α) (k : String) : Option α :=
  (d.find? (fun p => p.1 == k)).map Prod.snd

/-- `LayeredMesh`: the boundary array and the per-layer property
dictionaries, exactly the two private attributes of the Python class. -/
structure LayeredMesh (α : Type*) where
  _layer_boundaries : List α
  _layer_properties : List (PropsDict α)

/-- Message of the boundary-ordering `ValueError` in `add_layer`. -/
def msgBoundary : String := "New layer boundary must be greater than the last boundary."

/-- Message of the missing-key `ValueError` in `add_layer`. -/
def msgKeys : String := "New layer must specify n, mu_s, mu_a, and g properties."

/-- `LayeredMesh.add_layer`: validates the new boundary and the property
record, then appends one boundary and one record.  A `ValueError` is
modelled as `Except.error` carrying the message and the state of the mesh
at the moment of the raise (both raises precede any mutation in the
source, so that state is the original mesh). -/
def add_layer {α : Type*} [LinearOrder α] (m : LayeredMesh α) (boundary : α)
    (properties : PropsDict α) : Except (String × LayeredMesh α) (LayeredMesh α) :=
  if m._layer_boundaries ≠ [] ∧ boundary ≤ m._layer_boundaries.getLast?.getD boundary then
    .error (msgBoundary, m)
  else if ¬ (requiredKeys.all (fun k => hasKey properties k)) then
    .error (msgKeys, m)
  else
    .ok { _layer_boundaries := m._layer_boundaries ++ [boundary],
          _layer_properties := m._layer_properties ++ [properties] }

/-- `np.searchsorted(bs, z, side='right')` on a sorted array: the number of
entries `≤ z`.  The source performs a binary search; on sorted input that
search returns exactly this count, which is the specification numpy
documents, so the count is the faithful functional model. -/
def searchsorted_right {α : Type*} [LinearOrder α] : List α → α → ℕ
  | [], _ => 0
  | b :: bs, z => if b ≤ z then searchsorted_right bs z + 1 else searchsorted_right bs z

/-- `LayeredMesh.get_layer_index` on the boundary list: `-1` outside
`[b[0], b[n-1]]`, otherwise `searchsorted(..., side='right') - 1`.
Reading `b[0]` of an empty mesh faults in the source; every claim assumes
a nonempty mesh, and the `[]` case is given the sentinel. -/
def get_layer_index {α : Type*} [LinearOrder α] (bs : List α) (z : α) : Int :=
  match bs with
  | [] => -1
  | b0 :: tl =>
    if z < b0 ∨ tl.getLast?.getD b0 < z then -1
    else (searchsorted_right (b0 :: tl) z : Int) - 1

theorem searchsorted_le_length {α : Type*} [LinearOrder α] (bs : List α) (z : α) :
    searchsorted_right bs z ≤ bs.length := by
  induction bs with
  | nil => simp [searchsorted_right]
  | cons b tl ih =>
    by_cases h : b ≤ z <;> simp [searchsorted_right, h] <;> omega

theorem searchsorted_eq_zero {α : Type*} [LinearOrder α] {bs : List α} {z : α}
    (h : ∀ x ∈ bs, ¬ x ≤ z) : searchsorted_right bs z = 0 := by
  induction bs with
  | nil => rfl
  | cons b tl ih =>
    have hb : ¬ b ≤ z := h b (List.mem_cons_self b tl)
    simp only [searchsorted_right, hb, if_false]
    exact ih (fun x hx => h x (List.mem_cons_of_mem b hx))

/-- On a strictly increasing list, membership of index `j` in the counted
prefix characterises `bs[j] ≤ z`. -/
theorem searchsorted_spec {α : Type*} [LinearOrder α] {bs : List α} {z : α}
    (hs : bs.Pairwise (· < ·)) :
    ∀ j x, bs.get? j = some x → (x ≤ z ↔ j < searchsorted_right bs z) := by
  induction bs with
  | nil => intro j x h; simp at h
  | cons b tl ih =>
    have hlt : ∀ y ∈ tl, b < y := (List.pairwise_cons.mp hs).1
    have htl : tl.Pairwise (· < ·) := (List.pairwise_cons.mp hs).2
    intro j x h
    by_cases hb : b ≤ z
    · simp only [searchsorted_right, hb, if_true]
      match j with
      | 0 =>
        simp only [List.get?_cons_zero, Option.some.injEq] at h
        subst h
        simp [hb]
      | j' + 1 =>
        simp only [List.get?_cons_succ] at h
        rw [ih htl j' x h]
        omega
    · have hz : z < b := lt_of_not_le hb
      have h0 : searchsorted_right tl z = 0 :=
        searchsorted_eq_zero (fun y hy => not_le_of_lt (lt_trans hz (hlt y hy)))
      simp only [searchsorted_right, hb, if_false, h0]
      match j with
      | 0 =>
        simp only [List.get?_cons_zero, Option.some.injEq] at h
        subst h
        simp [hb]
      | j' + 1 =>
        simp only [List.get?_cons_succ] at h
        have : ¬ x ≤ z := by
          have := hlt x (List.get?_mem h)
          exact not_le_of_lt (lt_trans hz this)
        simp [this]

/-- For a nonempty list, the driver-visible last boundary agrees with the
`getLast?` of the whole list. -/
theorem getLast_cons_getD {α : Type*} (b0 : α) (tl : List α) :
    tl.getLast?.getD b0 = ((b0 :: tl).getLast?).getD b0 := by
  cases tl with
  | nil => rfl
  | cons a l => simp [List.getLast?_cons_cons]

/-- Inside the mesh, `get_layer_index` returns `searchsorted - 1` as a
natural number. -/
theorem get_layer_index_inside {α : Type*} [LinearOrder α] {bs : List α} {z b0 bl : α}
    (h0 : bs.head? = some b0) (hl : bs.getLast? = some bl)
    (hin : b0 ≤ z) (hz : z ≤ bl) :
    get_layer_index bs z = (searchsorted_right bs z : Int) - 1 := by
  cases bs with
  | nil => simp at h0
  | cons b tl =>
    have hb : b = b0 := by simpa using h0
    subst hb
    have hlast : tl.getLast?.getD b = bl := by
      rw [getLast_cons_getD b tl, hl]
      rfl
    have hcond : ¬ (z < b ∨ tl.getLast?.getD b < z) := by
      rw [hlast]
      push_neg
      exact ⟨hin, hz⟩
    simp [get_layer_index, hcond]

/-! ## Photon (`photon.py`) -/

/-- 3-D coordinate / direction vector. -/
abbrev Vec3 := ℝ × ℝ × ℝ

/-- The `Photon` dataclass together with the attributes its
`__post_init__` installs (`path`, `weight`, `alive`). -/
structure Photon where
  position : Vec3
  direction : Vec3
  path : List Vec3
  weight : ℝ
  alive : Bool

/-- Construction of a `Photon`: the dataclass defaults are
`position = (0.0, 0.0, 1.0)` and `direction = (0.0, 0.0, 1.0)` (the
source default of `position` really is `(0,0,1)`, not the origin its
docstring advertises), and `__post_init__` sets `path = [position]`,
`weight = 1.0`, `alive = True`. -/
def Photon.make (position : Vec3 := ((0 : ℝ), 0, 1))
    (direction : Vec3 := ((0 : ℝ), 0, 1)) : Photon :=
  { position := position, direction := direction,
    path := [position], weight := 1, alive := true }

/-- `Photon.move`: appends `path[-1] + direction * step_size` to `path`.
A `path[-1]` read of an empty path would fault in the source; the path is
nonempty by construction, and the junk default `position` is used here
only to keep the function total. -/
def Photon.move (p : Photon) (step_size : ℝ) : Photon :=
  { p with path := p.path ++ [p.path.getLast?.getD p.position + step_size • p.direction] }

/-- `Photon.scatter`: replaces the direction by the lab-frame unit vector
built from the sampled polar angle `theta` and azimuth `phi`
(`phi = 2*pi*rand()` is drawn by the caller of this model). -/
noncomputable def Photon.scatter (p : Photon) (theta phi : ℝ) : Photon :=
  { p with direction :=
      (Real.sin theta * Real.cos phi, Real.sin theta * Real.sin phi, Real.cos theta) }

/-- `Photon.absorb`: exponential single-step weight decay
`weight -= weight * (1 - exp(-mu_a * step_size))`.  Defined on the photon
but never called by the driver. -/
noncomputable def Photon.absorb (p : Photon) (mu_a step_size : ℝ) : Photon :=
  { p with weight := p.weight - p.weight * (1 - Real.exp (-(mu_a * step_size))) }

/-- `Photon.check_weight`: kills the photon iff its weight is below the
threshold (default `0.001`). -/
noncomputable def Photon.check_weight (p : Photon) (threshold : ℝ := 1 / 1000) : Photon :=
  if p.weight < threshold then { p with alive := false } else p

/-! ## Henyey-Greenstein sampler (`henyey_greenstein.py`) -/

/-- The cosine sampled by `sample_henyey_greenstein` from anisotropy `g`
and one uniform draw `u`: `2*u - 1` in the isotropic regime
`|g| < 1e-10`, otherwise the inverse-CDF expression of the source with
its exact operator order. -/
def hg_costheta {α : Type*} [LinearOrderedField α] (g u : α) : α :=
  if |g| < 1 / 10 ^ 10 then 2 * u - 1
  else (1 + g ^ 2 - ((1 - g ^ 2) / (1 - g + 2 * g * u)) ^ 2) / (2 * g)

/-- `sample_henyey_greenstein` over an explicit stream of uniform draws:
consumes exactly one draw (each branch of the source calls
`np.random.uniform()` exactly once) and returns `arccos` of the sampled
cosine together with the remaining stream.  An exhausted stream is
modelled as `none`. -/
noncomputable def sample_henyey_greenstein (g : ℝ) (rng : List ℝ) : Option (ℝ × List ℝ) :=
  match rng with
  | [] => none
  | u :: rest => some (Real.arccos (hg_costheta g u), rest)

/-! ## MonteCarloSimulator (`simulation.py`) -/

/-- The per-trial mutable state of `run()`: the current photon and the
shared absorption profile. -/
structure SimState where
  photon : Photon
  profile : List ℝ

/-- One iteration of the `while photon.alive` loop of
`MonteCarloSimulator.run`, for the global uniform stream `rng` at draw
counter `k`.  Returns the successor state and counter, or `none` where
the source would raise (empty boundary array, empty path, a property
dictionary without `mu_s`/`mu_a`, or an out-of-range
`absorption_profile[layer_index]`).  The escape branch consumes no
draw; the interior branch consumes exactly one. -/
noncomputable def loopBody (mesh : LayeredMesh ℝ) (rng : ℕ → ℝ) (s : SimState) (k : ℕ) :
    Option (SimState × ℕ) :=
  match s.photon.path.getLast? with
  | none => none
  | some current_position =>
    match mesh._layer_boundaries.head?, mesh._layer_boundaries.getLast? with
    | some b0, some blast =>
      if current_position.2.2 < b0 ∨ blast < current_position.2.2 then
        some ({ s with photon := { s.photon with alive := false } }, k)
      else
        match pyGet mesh._layer_properties
            (get_layer_index mesh._layer_boundaries current_position.2.2) with
        | none => none
        | some layer_props =>
          match dictGet layer_props key_mu_s, dictGet layer_props key_mu_a with
          | some mu_s, some mu_a =>
            match pySet s.profile
                (get_layer_index mesh._layer_boundaries current_position.2.2)
                ((pyGet s.profile
                    (get_layer_index mesh._layer_boundaries current_position.2.2)).getD 0 +
                  ((s.photon.move (-Real.log (rng k) / mu_s)).check_weight).weight * mu_a *
                    (-Real.log (rng k) / mu_s)) with
            | none => none
            | some profile1 =>
              some ({ photon :=
                        { (s.photon.move (-Real.log (rng k) / mu_s)).check_weight with
                          weight :=
                            ((s.photon.move (-Real.log (rng k) / mu_s)).check_weight).weight *
                              (1 - mu_a * (-Real.log (rng k) / mu_s)) },
                      profile := profile1 }, k + 1)
          | _, _ => none
    | _, _ => none

/-- The `while photon.alive` loop, with explicit fuel: `none` when fuel
runs out before the photon dies or when an iteration faults. -/
noncomputable def runTrial (mesh : LayeredMesh ℝ) (rng : ℕ → ℝ) :
    ℕ → SimState → ℕ → Option (SimState × ℕ)
  | 0, s, k => if s.photon.alive then none else some (s, k)
  | fuel + 1, s, k =>
    if s.photon.alive then
      match loopBody mesh rng s k with
      | none => none
      | some (s1, k1) => runTrial mesh rng fuel s1 k1
    else some (s, k)

/-- The `for _ in range(self.num_photons)` loop of `run`: each trial
constructs `Photon(self.initial_photon_direction)` — the direction vector
is passed as the *first positional argument*, which is the dataclass
`position` field — drives it to termination, and appends its path. -/
noncomputable def runAux (mesh : LayeredMesh ℝ) (rng : ℕ → ℝ)
    (initial_photon_direction : Vec3) (fuel : ℕ) :
    ℕ → List (List Vec3) → List ℝ → ℕ → Option (List (List Vec3) × List ℝ)
  | 0, photon_paths, profile, _ => some (photon_paths, profile)
  | n + 1, photon_paths, profile, k =>
    match runTrial mesh rng fuel { photon := Photon.make initial_photon_direction,
                                   profile := profile } k with
    | none => none
    | some (s1, k1) => runAux mesh rng initial_photon_direction fuel n
        (photon_paths ++ [s1.photon.path]) s1.profile k1

/-- `MonteCarloSimulator.run`: `num_photons` sequential trials starting
from an all-zero absorption profile of length `len(boundaries) - 1`
(`np.zeros_like(mesh._layer_boundaries[:-1])`), returning the final
`photon_paths` and `absorption_profile`. -/
noncomputable def run (mesh : LayeredMesh ℝ) (num_photons : ℕ) (rng : ℕ → ℝ)
    (initial_photon_direction : Vec3 := ((0 : ℝ), 0, 1)) (fuel : ℕ) :
    Option (List (List Vec3) × List ℝ) :=
  runAux mesh rng initial_photon_direction fuel num_photons []
    (List.replicate (mesh._layer_boundaries.length - 1) 0) 0

theorem head?_get? {α : Type*} {l : List α} {b : α} (h : l.head? = some b) :
    l.get? 0 = some b := by
  cases l <;> simp_all

theorem getLast?_get? {α : Type*} {l : List α} {b : α} (h : l.getLast? = some b) :
    l.get? (l.length - 1) = some b := by
  induction l with
  | nil => simp at h
  | cons a tl ih =>
    cases tl with
    | nil => simpa using h
    | cons c tl' =>
      rw [List.getLast?_cons_cons] at h
      have h2 := ih h
      simp only [List.length_cons] at h2 ⊢
      simpa [Nat.add_sub_cancel] using h2

/-- C4: on a mesh with strictly increasing boundaries, `get_layer_index z`
returns the greatest index `i` with `b[i] ≤ z` whenever
`b[0] ≤ z ≤ b[n-1]` (so `z` on an interior boundary belongs to the layer
beginning there, and `z = b[n-1]` yields `n-1`), and returns the sentinel
`-1` for `z < b[0]` or `z > b[n-1]`. -/
theorem get_layer_index_correct {α : Type*} [LinearOrder α] (bs : List α)
    (hs : bs.Pairwise (· < ·)) (b0 bl : α)
    (h0 : bs.head? = some b0) (hl : bs.getLast? = some bl) (z : α) :
    (b0 ≤ z → z ≤ bl →
      ∃ i : ℕ, get_layer_index bs z = (i : Int) ∧ i < bs.length ∧
        (∃ x, bs.get? i = some x ∧ x ≤ z) ∧
        (∀ j y, bs.get? j = some y → y ≤ z → j ≤ i) ∧
        (z = bl → i = bs.length - 1))
    ∧ ((z < b0 ∨ bl < z) → get_layer_index bs z = -1) := by
  constructor
  · intro hin hz
    have hss1 : 1 ≤ searchsorted_right bs z := by
      have := (searchsorted_spec hs 0 b0 (head?_get? h0)).mp hin
      omega
    have hssle : searchsorted_right bs z ≤ bs.length := searchsorted_le_length bs z
    refine ⟨searchsorted_right bs z - 1, ?_, by omega, ?_, ?_, ?_⟩
    · rw [get_layer_index_inside h0 hl hin hz]
      omega
    · have hi : searchsorted_right bs z - 1 < bs.length := by omega
      refine ⟨bs.get ⟨_, hi⟩, List.get?_eq_get hi, ?_⟩
      exact (searchsorted_spec hs _ _ (List.get?_eq_get hi)).mpr (by omega)
    · intro j y hj hy
      have := (searchsorted_spec hs j y hj).mp hy
      omega
    · intro hzbl
      have hj := getLast?_get? hl
      have hble : bl ≤ z := le_of_eq hzbl.symm
      have := (searchsorted_spec hs (bs.length - 1) bl hj).mp hble
      omega
  · intro hout
    cases bs with
    | nil => simp at h0
    | cons b tl =>
      have hb : b = b0 := by simpa using h0
      subst hb
      have hlast : tl.getLast?.getD b = bl := by
        rw [getLast_cons_getD b tl, hl]
        rfl
      have hcond : z < b ∨ tl.getLast?.getD b < z := by
        rw [hlast]
        exact hout
      simp [get_layer_index, hcond]

/-- Witness for C4 at the concrete mesh `[0, 3, 5]` and `z = 3`: the
boundary point `z = b[1]` belongs to layer `1`, and `z = 6` is outside. -/
theorem get_layer_index_correct_witness :
    ((0 : ℚ) ≤ 3 → (3 : ℚ) ≤ 5 →
      ∃ i : ℕ, get_layer_index [(0 : ℚ), 3, 5] 3 = (i : Int) ∧
        i < ([(0 : ℚ), 3, 5]).length ∧
        (∃ x, ([(0 : ℚ), 3, 5]).get? i = some x ∧ x ≤ 3) ∧
        (∀ j y, ([(0 : ℚ), 3, 5]).get? j = some y → y ≤ 3 → j ≤ i) ∧
        ((3 : ℚ) = 5 → i = ([(0 : ℚ), 3, 5]).length - 1))
    ∧ (((3 : ℚ) < 0 ∨ (5 : ℚ) < 3) → get_layer_index [(0 : ℚ), 3, 5] 3 = -1) :=
  get_layer_index_correct [(0 : ℚ), 3, 5] (by decide) 0 5 rfl rfl 3

/-- C5: for every anisotropy `g` and uniform draw `u ∈ [0,1)`,
`sample_henyey_greenstein` consumes exactly one draw from the stream and
returns `arccos` of the sampled cosine, which lands in `[0, pi]`; the
cosine is `2u - 1` when `|g| < 1e-10` and otherwise the inverse-CDF
expression `(1 + g^2 - ((1 - g^2)/(1 - g + 2*g*u))^2) / (2*g)` in exactly
the operator order of the source. -/
theorem sample_henyey_greenstein_correct (g u : ℝ) (rest : List ℝ)
    (_h0 : 0 ≤ u) (_h1 : u < 1) :
    sample_henyey_greenstein g (u :: rest) =
      some (Real.arccos (hg_costheta g u), rest)
    ∧ (|g| < 1 / 10 ^ 10 → hg_costheta g u = 2 * u - 1)
    ∧ (¬ |g| < 1 / 10 ^ 10 →
        hg_costheta g u =
          (1 + g ^ 2 - ((1 - g ^ 2) / (1 - g + 2 * g * u)) ^ 2) / (2 * g))
    ∧ 0 ≤ Real.arccos (hg_costheta g u)
    ∧ Real.arccos (hg_costheta g u) ≤ Real.pi :=
  ⟨rfl, fun h => by rw [hg_costheta, if_pos h], fun h => by rw [hg_costheta, if_neg h],
   Real.arccos_nonneg _, Real.arccos_le_pi _⟩

/-- Witness for C5 at `g = 0`, `u = 1/2`, remaining stream `[1/3]`. -/
theorem sample_henyey_greenstein_correct_witness :
    sample_henyey_greenstein 0 ((1 / 2 : ℝ) :: [(1 / 3 : ℝ)]) =
      some (Real.arccos (hg_costheta 0 (1 / 2)), [(1 / 3 : ℝ)])
    ∧ (|(0 : ℝ)| < 1 / 10 ^ 10 → hg_costheta (0 : ℝ) (1 / 2) = 2 * (1 / 2) - 1)
    ∧ (¬ |(0 : ℝ)| < 1 / 10 ^ 10 →
        hg_costheta (0 : ℝ) (1 / 2) =
          (1 + 0 ^ 2 - ((1 - 0 ^ 2) / (1 - 0 + 2 * 0 * (1 / 2))) ^ 2) / (2 * 0))
    ∧ 0 ≤ Real.arccos (hg_costheta 0 (1 / 2))
    ∧ Real.arccos (hg_costheta 0 (1 / 2)) ≤ Real.pi :=
  sample_henyey_greenstein_correct 0 (1 / 2) [(1 / 3 : ℝ)] (by norm_num) (by norm_num)

/-- C7: `add_layer` raises the boundary `ValueError` when the new
boundary is `≤` the last boundary of a nonempty mesh, raises the
missing-key `ValueError` when any of the four required keys is absent,
and in both cases the mesh at the moment of the raise is the unmutated
original; on success exactly one boundary and one property record are
appended. -/
theorem add_layer_correct {α : Type*} [LinearOrder α] (m : LayeredMesh α)
    (boundary : α) (properties : PropsDict α) :
    (m._layer_boundaries ≠ [] →
      boundary ≤ m._layer_boundaries.getLast?.getD boundary →
      add_layer m boundary properties = .error (msgBoundary, m))
    ∧ (¬ (m._layer_boundaries ≠ [] ∧
          boundary ≤ m._layer_boundaries.getLast?.getD boundary) →
        (∃ kk ∈ requiredKeys, hasKey properties kk = false) →
        add_layer m boundary properties = .error (msgKeys, m))
    ∧ ((m._layer_boundaries = [] ∨
          m._layer_boundaries.getLast?.getD boundary < boundary) →
        (∀ kk ∈ requiredKeys, hasKey properties kk = true) →
        add_layer m boundary properties =
          .ok ⟨m._layer_boundaries ++ [boundary],
               m._layer_properties ++ [properties]⟩) := by
  refine ⟨?_, ?_, ?_⟩
  · intro hne hle
    unfold add_layer
    rw [if_pos ⟨hne, hle⟩]
  · intro hnot hmiss
    obtain ⟨kk, hkk, hfalse⟩ := hmiss
    have hall : ¬ (requiredKeys.all (fun k => hasKey properties k)) = true := by
      intro hall
      have := List.all_eq_true.mp hall kk hkk
      rw [hfalse] at this
      cases this
    unfold add_layer
    rw [if_neg hnot, if_pos hall]
  · intro hok hall
    have hnot : ¬ (m._layer_boundaries ≠ [] ∧
        boundary ≤ m._layer_boundaries.getLast?.getD boundary) := by
      rcases hok with hnil | hlt
      · intro h
        exact h.1 hnil
      · intro h
        exact absurd h.2 (not_le_of_lt hlt)
    have hkeys : ¬ ¬ (requiredKeys.all (fun k => hasKey properties k)) = true := by
      intro h
      exact h (List.all_eq_true.mpr hall)
    unfold add_layer
    rw [if_neg hnot, if_neg hkeys]

/-- Witness for C7: on the mesh with boundary list `[0]`, a repeated
boundary `0` is rejected, a record missing `mu_s` is rejected, and a
valid insertion at boundary `1` appends exactly one boundary and one
record — all three with the original mesh intact on failure. -/
theorem add_layer_correct_witness :
    add_layer (⟨[(0 : ℚ)], [[(key_n, 1), (key_mu_s, 1), (key_mu_a, 0), (key_g, 0)]]⟩)
        0 [(key_n, 1), (key_mu_s, 1), (key_mu_a, 0), (key_g, 0)] =
      .error (msgBoundary,
        ⟨[(0 : ℚ)], [[(key_n, 1), (key_mu_s, 1), (key_mu_a, 0), (key_g, 0)]]⟩)
    ∧ add_layer (⟨[(0 : ℚ)], [[(key_n, 1), (key_mu_s, 1), (key_mu_a, 0), (key_g, 0)]]⟩)
        1 [(key_n, 1), (key_mu_a, 0), (key_g, 0)] =
      .error (msgKeys,
        ⟨[(0 : ℚ)], [[(key_n, 1), (key_mu_s, 1), (key_mu_a, 0), (key_g, 0)]]⟩)
    ∧ add_layer (⟨[(0 : ℚ)], [[(key_n, 1), (key_mu_s, 1), (key_mu_a, 0), (key_g, 0)]]⟩)
        1 [(key_n, 1), (key_mu_s, 1), (key_mu_a, 0), (key_g, 0)] =
      .ok ⟨[(0 : ℚ)] ++ [1],
           [[(key_n, 1), (key_mu_s, 1), (key_mu_a, 0), (key_g, 0)]] ++
             [[(key_n, 1), (key_mu_s, 1), (key_mu_a, 0), (key_g, 0)]]⟩ :=
  ⟨(add_layer_correct _ 0 _).1 (by decide) (by decide),
   (add_layer_correct _ 1 _).2.1 (by decide) ⟨key_mu_s, by decide, by decide⟩,
   (add_layer_correct _ 1 _).2.2 (Or.inr (by decide)) (by decide)⟩

theorem Photon.move_weight (p : Photon) (st : ℝ) : (p.move st).weight = p.weight := rfl

theorem Photon.move_path (p : Photon) (st : ℝ) :
    (p.move st).path = p.path ++ [p.path.getLast?.getD p.position + st • p.direction] := rfl

theorem Photon.move_alive (p : Photon) (st : ℝ) : (p.move st).alive = p.alive := rfl

theorem Photon.move_direction (p : Photon) (st : ℝ) :
    (p.move st).direction = p.direction := rfl

theorem Photon.move_position (p : Photon) (st : ℝ) :
    (p.move st).position = p.position := rfl

theorem Photon.check_weight_weight (p : Photon) (t : ℝ) :
    (p.check_weight t).weight = p.weight := by
  unfold Photon.check_weight
  split <;> rfl

theorem Photon.check_weight_path (p : Photon) (t : ℝ) :
    (p.check_weight t).path = p.path := by
  unfold Photon.check_weight
  split <;> rfl

theorem Photon.check_weight_direction (p : Photon) (t : ℝ) :
    (p.check_weight t).direction = p.direction := by
  unfold Photon.check_weight
  split <;> rfl

theorem Photon.check_weight_position (p : Photon) (t : ℝ) :
    (p.check_weight t).position = p.position := by
  unfold Photon.check_weight
  split <;> rfl

theorem Photon.check_weight_alive (p : Photon) (t : ℝ) :
    (p.check_weight t).alive = if p.weight < t then false else p.alive := by
  unfold Photon.check_weight
  split <;> rfl

/-- Full case analysis of one successful driver iteration: either the
escape branch (depth outside the mesh, photon killed, nothing else
touched, no draw consumed) or the interior branch (one draw consumed,
step `-log(u)/mu_s`, move, weight check, deposit, rescale). -/
theorem loopBody_inv (mesh : LayeredMesh ℝ) (rng : ℕ → ℝ) (s : SimState) (k : ℕ)
    (r : SimState × ℕ) (h : loopBody mesh rng s k = some r) :
    (∃ pos b0 bl,
      s.photon.path.getLast? = some pos ∧
      mesh._layer_boundaries.head? = some b0 ∧
      mesh._layer_boundaries.getLast? = some bl ∧
      (pos.2.2 < b0 ∨ bl < pos.2.2) ∧
      r = (⟨{ s.photon with alive := false }, s.profile⟩, k))
    ∨ (∃ pos b0 bl d ms ma profile1,
      s.photon.path.getLast? = some pos ∧
      mesh._layer_boundaries.head? = some b0 ∧
      mesh._layer_boundaries.getLast? = some bl ∧
      ¬ (pos.2.2 < b0 ∨ bl < pos.2.2) ∧
      pyGet mesh._layer_properties
          (get_layer_index mesh._layer_boundaries pos.2.2) = some d ∧
      dictGet d key_mu_s = some ms ∧
      dictGet d key_mu_a = some ma ∧
      pySet s.profile (get_layer_index mesh._layer_boundaries pos.2.2)
          ((pyGet s.profile (get_layer_index mesh._layer_boundaries pos.2.2)).getD 0 +
            ((s.photon.move (-Real.log (rng k) / ms)).check_weight).weight * ma *
              (-Real.log (rng k) / ms)) = some profile1 ∧
      r = (⟨{ (s.photon.move (-Real.log (rng k) / ms)).check_weight with
              weight := ((s.photon.move (-Real.log (rng k) / ms)).check_weight).weight *
                (1 - ma * (-Real.log (rng k) / ms)) },
            profile1⟩, k + 1)) := by
  unfold loopBody at h
  split at h
  · exact absurd h (by simp)
  · rename_i pos hpos
    split at h
    · rename_i b0 bl hb0 hbl
      split at h
      · rename_i hout
        left
        exact ⟨pos, b0, bl, hpos, hb0, hbl, hout, (Option.some.injEq _ _ ▸ h).symm⟩
      · rename_i hout
        split at h
        · exact absurd h (by simp)
        · rename_i d hd
          split at h
          · rename_i ms ma hms hma
            split at h
            · exact absurd h (by simp)
            · rename_i profile1 hset
              right
              exact ⟨pos, b0, bl, d, ms, ma, profile1, hpos, hb0, hbl, hout, hd, hms,
                hma, hset, (Option.some.injEq _ _ ▸ h).symm⟩
          · exact absurd h (by simp)
    · exact absurd h (by simp)

/-- C8: whenever the depth of the photon's last path position lies below
the first or above the last mesh boundary, the iteration only kills the
photon: no uniform draw is consumed, no step is sampled, the path, the
weight and the absorption profile are all unchanged. -/
theorem loopBody_escape (mesh : LayeredMesh ℝ) (rng : ℕ → ℝ) (s : SimState) (k : ℕ)
    (b0 bl : ℝ) (pos : Vec3)
    (hb0 : mesh._layer_boundaries.head? = some b0)
    (hbl : mesh._layer_boundaries.getLast? = some bl)
    (hpos : s.photon.path.getLast? = some pos)
    (hout : pos.2.2 < b0 ∨ bl < pos.2.2) :
    loopBody mesh rng s k =
      some (⟨Photon.mk s.photon.position s.photon.direction s.photon.path
               s.photon.weight false, s.profile⟩, k) := by
  simp only [loopBody, hpos, hb0, hbl]
  rw [if_pos hout]

/-- C9: `check_weight` sets `alive` to `false` exactly below the
threshold (default `0.001`) and otherwise leaves it untouched; `move`,
`scatter` and `absorb` never touch `alive`; a fresh photon is alive; and
a driver iteration never resurrects a dead photon — the transition to
`alive = false` is one-way. -/
theorem alive_one_way :
    (∀ (p : Photon) (t : ℝ),
      (p.check_weight t).alive = true ↔ (p.alive = true ∧ ¬ p.weight < t))
    ∧ (∀ p : Photon, p.check_weight = p.check_weight (1 / 1000))
    ∧ (∀ (p : Photon) (st : ℝ), (p.move st).alive = p.alive)
    ∧ (∀ (p : Photon) (theta phi : ℝ), (p.scatter theta phi).alive = p.alive)
    ∧ (∀ (p : Photon) (mu_a st : ℝ), (p.absorb mu_a st).alive = p.alive)
    ∧ (∀ v w : Vec3, (Photon.make v w).alive = true)
    ∧ (∀ (mesh : LayeredMesh ℝ) (rng : ℕ → ℝ) (s : SimState) (k : ℕ)
        (r : SimState × ℕ), loopBody mesh rng s k = some r →
        r.1.photon.alive = true → s.photon.alive = true) := by
  refine ⟨?_, fun p => rfl, fun p st => rfl, fun p theta phi => rfl,
    fun p mu_a st => rfl, fun v w => rfl, ?_⟩
  · intro p t
    unfold Photon.check_weight
    split <;> rename_i hw <;> simp [hw]
  · intro mesh rng s k r h halive
    rcases loopBody_inv mesh rng s k r h with
      ⟨pos, b0, bl, _, _, _, _, hr⟩ |
      ⟨pos, b0, bl, d, ms, ma, pr, _, _, _, _, _, _, _, _, hr⟩
    · rw [hr] at halive
      simp at halive
    · rw [hr] at halive
      simp only at halive
      rw [Photon.check_weight_alive, Photon.move_alive, Photon.move_weight] at halive
      by_cases hw : s.photon.weight < 1 / 1000
      · rw [if_pos hw] at halive
        cases halive
      · rwa [if_neg hw] at halive

/-! ## Concrete evaluation scenarios -/

/-- A complete property record with `n = 1`, `mu_s = 1`, `mu_a = 0`,
`g = 0`. -/
noncomputable def demoProps : PropsDict ℝ :=
  [(key_n, 1), (key_mu_s, 1), (key_mu_a, 0), (key_g, 0)]

/-- A two-boundary mesh `[0, 10]` with absorption-free unit-scattering
layers. -/
noncomputable def demoMesh : LayeredMesh ℝ := ⟨[0, 10], [demoProps, demoProps]⟩

/-- A uniform stream constantly `exp(-1)`, so every free-path draw in a
`mu_s = 1` layer is a step of length `1`. -/
noncomputable def demoRng : ℕ → ℝ := fun _ => Real.exp (-1)

/-- The trial state `run` builds from
`initial_photon_direction = (1,0,0)`: the vector lands in the photon's
`position` slot, so the photon sits at depth `z = 0`. -/
noncomputable def demoState : SimState := ⟨Photon.make ((1 : ℝ), 0, 0), [0]⟩

theorem dictGet_demo_mu_s : dictGet demoProps key_mu_s = some 1 := by
  unfold dictGet demoProps
  rw [List.find?_cons_of_neg _ (by decide), List.find?_cons_of_pos _ (by decide)]
  rfl

theorem dictGet_demo_mu_a : dictGet demoProps key_mu_a = some 0 := by
  unfold dictGet demoProps
  rw [List.find?_cons_of_neg _ (by decide), List.find?_cons_of_neg _ (by decide),
    List.find?_cons_of_pos _ (by decide)]
  rfl

theorem demoStep : -Real.log (demoRng 0) = 1 := by
  simp [demoRng, Real.log_exp]

/-- Evaluating one interior iteration of the demo scenario: the photon at
depth `0` moves by step `1` along the default direction `(0,0,1)`, stays
alive at weight `1`, deposits nothing (`mu_a = 0`), and one draw is
consumed. -/
theorem loopBody_demo :
    loopBody demoMesh demoRng demoState 0 =
      some (⟨Photon.mk ((1 : ℝ), 0, 0) ((0 : ℝ), 0, 1)
               [((1 : ℝ), 0, 0), ((1 : ℝ), 0, 1)] 1 true, [(0 : ℝ)]⟩, 1) := by
  unfold loopBody demoState demoMesh
  simp only [Photon.make, List.getLast?_singleton, List.head?_cons,
    List.getLast?_cons_cons, List.getLast?_singleton]
  norm_num [get_layer_index, searchsorted_right, pyGet, pySet, pyIdx,
    dictGet_demo_mu_s, dictGet_demo_mu_a, demoStep, Photon.move, Photon.check_weight,
    Prod.smul_mk, Prod.mk_add_mk, smul_eq_mul]

/-- The constant uniform stream `1`. -/
noncomputable def rng1 : ℕ → ℝ := fun _ => 1

/-- A one-boundary mesh `[0]` with no layer records. -/
noncomputable def escMesh : LayeredMesh ℝ := ⟨[(0 : ℝ)], []⟩

/-- The trial state `run` builds from
`initial_photon_direction = (0,0,-1)`: the photon sits at depth
`z = -1`, below `b[0] = 0`. -/
noncomputable def escState : SimState := ⟨Photon.make ((0 : ℝ), 0, -1), []⟩

/-- Evaluating the escape iteration of scenario D: the photon starting at
`z = -1` with `b[0] = 0` is killed with its one-element path intact and
no draw consumed. -/
theorem loopBody_esc :
    loopBody escMesh rng1 escState 0 =
      some (⟨Photon.mk ((0 : ℝ), 0, -1) ((0 : ℝ), 0, 1) [((0 : ℝ), 0, -1)] 1 false,
             []⟩, 0) := by
  unfold loopBody escState escMesh
  simp only [Photon.make, List.getLast?_singleton, List.head?_cons]
  norm_num

/-- A property record with `mu_a = 1` (and `n = 1`, `mu_s = 1`,
`g = 0`). -/
noncomputable def absProps : PropsDict ℝ :=
  [(key_n, 1), (key_mu_s, 1), (key_mu_a, 1), (key_g, 0)]

/-- A two-boundary mesh `[0, 10]` of strongly absorbing layers. -/
noncomputable def absMesh : LayeredMesh ℝ := ⟨[0, 10], [absProps, absProps]⟩

/-- A uniform stream constantly `exp(-2)`: each free-path draw in a
`mu_s = 1` layer is a step of length `2`, so `mu_a * step = 2 > 1`. -/
noncomputable def absRng : ℕ → ℝ := fun _ => Real.exp (-2)

/-- A fresh-weight photon at depth `z = 1`, inside the `[0, 10]` mesh. -/
noncomputable def absState : SimState := ⟨Photon.make ((0 : ℝ), 0, 1), [0]⟩

theorem dictGet_abs_mu_s : dictGet absProps key_mu_s = some 1 := by
  unfold dictGet absProps
  rw [List.find?_cons_of_neg _ (by decide), List.find?_cons_of_pos _ (by decide)]
  rfl

theorem dictGet_abs_mu_a : dictGet absProps key_mu_a = some 1 := by
  unfold dictGet absProps
  rw [List.find?_cons_of_neg _ (by decide), List.find?_cons_of_neg _ (by decide),
    List.find?_cons_of_pos _ (by decide)]
  rfl

theorem absStep : -Real.log (absRng 0) = 2 := by
  simp [absRng, Real.log_exp]

/-- Evaluating one interior iteration of the absorbing scenario: with
`mu_a = 1`, `mu_s = 1` and the draw `u = exp(-2)` the linear rescale
factor is `1 - 1*2 = -1`, so the photon's weight becomes `-1`, outside
`[0, 1]`. -/
theorem loopBody_abs :
    loopBody absMesh absRng absState 0 =
      some (⟨Photon.mk ((0 : ℝ), 0, 1) ((0 : ℝ), 0, 1)
               [((0 : ℝ), 0, 1), ((0 : ℝ), 0, 3)] (-1) true, [(2 : ℝ)]⟩, 1) := by
  unfold loopBody absState absMesh
  simp only [Photon.make, List.getLast?_singleton, List.head?_cons,
    List.getLast?_cons_cons, List.getLast?_singleton]
  norm_num [get_layer_index, searchsorted_right, pyGet, pySet, pyIdx,
    dictGet_abs_mu_s, dictGet_abs_mu_a, absStep, Photon.move, Photon.check_weight,
    Prod.smul_mk, Prod.mk_add_mk, smul_eq_mul]

/-- A two-boundary mesh `[0, 1]` (one real layer, two property
records as built by two `add_layer` calls). -/
noncomputable def edgeMesh : LayeredMesh ℝ := ⟨[0, 1], [demoProps, demoProps]⟩

/-- A photon exactly at the outer terminus `z = b[n-1] = 1`. -/
noncomputable def edgeState : SimState := ⟨Photon.make ((0 : ℝ), 0, 1), [(0 : ℝ)]⟩

/-- Evaluating an iteration at `z = b[n-1]` exactly: the depth passes the
inside test and `get_layer_index` returns `n-1 = 1`, but
`absorption_profile` has only `n-1 = 1` entries, so the deposit
`absorption_profile[1] += ...` is an `IndexError` — the iteration
faults instead of depositing. -/
theorem loopBody_edge : loopBody edgeMesh rng1 edgeState 0 = none := by
  unfold loopBody edgeState edgeMesh
  simp only [Photon.make, List.getLast?_singleton, List.head?_cons,
    List.getLast?_cons_cons, List.getLast?_singleton]
  norm_num [get_layer_index, searchsorted_right, pyGet, pySet, pyIdx,
    dictGet_demo_mu_s, dictGet_demo_mu_a, Photon.move, Photon.check_weight,
    Prod.smul_mk, Prod.mk_add_mk, smul_eq_mul, rng1]

/-- A successful iteration only ever appends to the path: its first
element survives. -/
theorem loopBody_path_head (mesh : LayeredMesh ℝ) (rng : ℕ → ℝ) (s : SimState) (k : ℕ)
    (r : SimState × ℕ) (h : loopBody mesh rng s k = some r) :
    r.1.photon.path.head? = s.photon.path.head? ∧ r.1.photon.path ≠ [] := by
  rcases loopBody_inv mesh rng s k r h with
    ⟨pos, b0, bl, hpos, _, _, _, hr⟩ |
    ⟨pos, b0, bl, d, ms, ma, pr, hpos, _, _, _, _, _, _, _, hr⟩
  · subst hr
    refine ⟨rfl, ?_⟩
    intro hnil
    rw [hnil] at hpos
    cases hpos
  · subst hr
    simp only [Photon.check_weight_path, Photon.move_path]
    cases hp : s.photon.path with
    | nil => rw [hp] at hpos; cases hpos
    | cons a l =>
      exact ⟨rfl, by simp⟩

theorem runTrial_path_head (mesh : LayeredMesh ℝ) (rng : ℕ → ℝ) :
    ∀ (fuel : ℕ) (s : SimState) (k : ℕ) (s' : SimState) (k' : ℕ),
      runTrial mesh rng fuel s k = some (s', k') → s.photon.path ≠ [] →
      s'.photon.path.head? = s.photon.path.head? ∧ s'.photon.path ≠ [] := by
  intro fuel
  induction fuel with
  | zero =>
    intro s k s' k' h hne
    unfold runTrial at h
    split at h
    · cases h
    · obtain ⟨rfl, rfl⟩ := Prod.mk.injEq .. ▸ Option.some.injEq _ _ ▸ h.symm
      exact ⟨rfl, hne⟩
  | succ fuel ih =>
    intro s k s' k' h hne
    unfold runTrial at h
    split at h
    · cases hlb : loopBody mesh rng s k with
      | none => rw [hlb] at h; cases h
      | some r =>
        rw [hlb] at h
        obtain ⟨hhead, hne1⟩ := loopBody_path_head mesh rng s k r hlb
        obtain ⟨hhead2, hne2⟩ := ih r.1 r.2 s' k' h hne1
        exact ⟨hhead2.trans hhead, hne2⟩
    · obtain ⟨rfl, rfl⟩ := Prod.mk.injEq .. ▸ Option.some.injEq _ _ ▸ h.symm
      exact ⟨rfl, hne⟩

theorem runAux_paths (mesh : LayeredMesh ℝ) (rng : ℕ → ℝ) (dir : Vec3) (fuel : ℕ) :
    ∀ (n : ℕ) (paths : List (List Vec3)) (profile : List ℝ) (k : ℕ)
      (paths' : List (List Vec3)) (profile' : List ℝ),
      runAux mesh rng dir fuel n paths profile k = some (paths', profile') →
      (∀ p ∈ paths, p.head? = some dir) →
      ((∀ p ∈ paths', p.head? = some dir) ∧ paths'.length = paths.length + n) := by
  intro n
  induction n with
  | zero =>
    intro paths profile k paths' profile' h hhead
    unfold runAux at h
    obtain ⟨rfl, rfl⟩ := Prod.mk.injEq .. ▸ Option.some.injEq _ _ ▸ h.symm
    exact ⟨hhead, rfl⟩
  | succ n ih =>
    intro paths profile k paths' profile' h hhead
    unfold runAux at h
    cases htr : runTrial mesh rng fuel
        { photon := Photon.make dir, profile := profile } k with
    | none => rw [htr] at h; cases h
    | some rk =>
      rw [htr] at h
      have hstart : ({ photon := Photon.make dir, profile := profile } :
          SimState).photon.path ≠ [] := by
        intro hnil
        cases hnil
      obtain ⟨hhead1, _⟩ := runTrial_path_head mesh rng fuel
        { photon := Photon.make dir, profile := profile } k rk.1 rk.2
        (by rw [htr]) hstart
      have hnew : ∀ p ∈ paths ++ [rk.1.photon.path], p.head? = some dir := by
        intro p hp
        rcases List.mem_append.mp hp with hp | hp
        · exact hhead p hp
        · rw [List.mem_singleton.mp hp, hhead1]
          rfl
      obtain ⟨hout, hlen⟩ := ih (paths ++ [rk.1.photon.path]) rk.1.profile rk.2
        paths' profile' h hnew
      refine ⟨hout, ?_⟩
      rw [hlen, List.length_append]
      simp
      omega

/-- Scenario D end to end: one photon entering at `z = -1` against the
mesh `[0]` escapes on the first iteration, leaving exactly one recorded
one-element path and the (empty) absorption profile. -/
theorem run_esc : run escMesh 1 rng1 ((0 : ℝ), 0, -1) 1 =
    some ([[((0 : ℝ), 0, -1)]], []) := by
  have h1 : List.replicate (escMesh._layer_boundaries.length - 1) (0 : ℝ) = [] := rfl
  have h2 : runTrial escMesh rng1 1 ⟨Photon.make ((0 : ℝ), 0, -1), []⟩ 0 =
      some (⟨Photon.mk ((0 : ℝ), 0, -1) ((0 : ℝ), 0, 1) [((0 : ℝ), 0, -1)] 1 false,
             []⟩, 0) := by
    unfold runTrial
    rw [if_pos (show (⟨Photon.make ((0 : ℝ), 0, -1), []⟩ :
      SimState).photon.alive = true from rfl)]
    rw [show (⟨Photon.make ((0 : ℝ), 0, -1), []⟩ : SimState) = escState from rfl,
      loopBody_esc]
    unfold runTrial
    rw [if_neg (by simp)]
  unfold run
  rw [h1]
  unfold runAux
  rw [h2]
  unfold runAux
  rfl

/-- C1 (the code, evaluated at the failing input): constructing the trial
photon from `initial_photon_direction = (1,0,0)` leaves its `direction`
at the dataclass default `(0,0,1)`, which differs from the supplied
vector, and an iteration moves the photon along `(0,0,1)` — the supplied
direction never steers the walk. -/
theorem run_direction_is_dataclass_default :
    (Photon.make ((1 : ℝ), 0, 0)).direction = ((0 : ℝ), 0, 1)
    ∧ (((0 : ℝ), 0, 1) : Vec3) ≠ ((1 : ℝ), 0, 0)
    ∧ (loopBody demoMesh demoRng demoState 0).map (fun r => r.1.photon.path) =
        some [((1 : ℝ), 0, 0), ((1 : ℝ), 0, 1)]
    ∧ (loopBody demoMesh demoRng demoState 0).map (fun r => r.1.photon.direction) =
        some ((0 : ℝ), 0, 1) :=
  ⟨rfl, by norm_num [Prod.ext_iff], by rw [loopBody_demo]; rfl,
   by rw [loopBody_demo]; rfl⟩

/-- C2: `run()` passes `initial_photon_direction` as the photon's
`position`: a fresh photon's position and sole initial path entry equal
the supplied vector while its direction keeps the dataclass default
`(0,0,1)`; consequently every path recorded by a completed `run` starts
at that vector. -/
theorem run_position_is_initial_direction :
    (∀ v : Vec3, (Photon.make v).position = v ∧ (Photon.make v).path = [v] ∧
      (Photon.make v).direction = ((0 : ℝ), 0, 1))
    ∧ (∀ (mesh : LayeredMesh ℝ) (n : ℕ) (rng : ℕ → ℝ) (dir : Vec3) (fuel : ℕ)
        (paths : List (List Vec3)) (prof : List ℝ),
        run mesh n rng dir fuel = some (paths, prof) →
        ∀ p ∈ paths, p.head? = some dir) := by
  refine ⟨fun v => ⟨rfl, rfl, rfl⟩, ?_⟩
  intro mesh n rng dir fuel paths prof h p hp
  exact (runAux_paths mesh rng dir fuel n [] _ 0 paths prof h (by simp)).1 p hp

/-- Witness for C2: a fresh photon built from `(5,0,0)` sits at `(5,0,0)`
with direction `(0,0,1)`, and the single path of the scenario-D run
starts at the supplied vector `(0,0,-1)`. -/
theorem run_position_is_initial_direction_witness :
    ((Photon.make ((5 : ℝ), 0, 0)).position = ((5 : ℝ), 0, 0) ∧
      (Photon.make ((5 : ℝ), 0, 0)).path = [((5 : ℝ), 0, 0)] ∧
      (Photon.make ((5 : ℝ), 0, 0)).direction = ((0 : ℝ), 0, 1))
    ∧ (∀ p ∈ [[((0 : ℝ), 0, -1)]], p.head? = some (((0 : ℝ), 0, -1) : Vec3)) :=
  ⟨run_position_is_initial_direction.1 ((5 : ℝ), 0, 0),
   run_position_is_initial_direction.2 escMesh 1 rng1 ((0 : ℝ), 0, -1) 1
     [[((0 : ℝ), 0, -1)]] [] run_esc⟩

/-- C10: a completed `run` records exactly `num_photons` paths (appended
in trial-completion order by construction), and `num_photons = 0` yields
the empty path collection together with the untouched all-zero absorption
profile of length `len(boundaries) - 1`. -/
theorem run_path_count :
    (∀ (mesh : LayeredMesh ℝ) (n : ℕ) (rng : ℕ → ℝ) (dir : Vec3) (fuel : ℕ)
        (paths : List (List Vec3)) (prof : List ℝ),
        run mesh n rng dir fuel = some (paths, prof) → paths.length = n)
    ∧ (∀ (mesh : LayeredMesh ℝ) (rng : ℕ → ℝ) (dir : Vec3) (fuel : ℕ),
        run mesh 0 rng dir fuel =
          some ([], List.replicate (mesh._layer_boundaries.length - 1) 0)) := by
  constructor
  · intro mesh n rng dir fuel paths prof h
    have := (runAux_paths mesh rng dir fuel n [] _ 0 paths prof h ?_).2
    · simpa using this
    · simp
  · intro mesh rng dir fuel
    rfl

/-- Witness for C10: the scenario-D run records exactly one path, and the
zero-photon run on the same mesh returns no paths and the all-zero
profile. -/
theorem run_path_count_witness :
    [[((0 : ℝ), 0, -1)]].length = 1
    ∧ run escMesh 0 rng1 ((0 : ℝ), 0, -1) 1 =
        some ([], List.replicate (escMesh._layer_boundaries.length - 1) 0) :=
  ⟨run_path_count.1 escMesh 1 rng1 ((0 : ℝ), 0, -1) 1 [[((0 : ℝ), 0, -1)]] [] run_esc,
   run_path_count.2 escMesh rng1 ((0 : ℝ), 0, -1) 1⟩

/-- Witness for C8: the scenario-D iteration — photon at `z = -1`, mesh
`[0]` — is killed with path, weight, profile and draw counter intact. -/
theorem loopBody_escape_witness :
    escMesh._layer_boundaries.head? = some 0
    ∧ escMesh._layer_boundaries.getLast? = some 0
    ∧ escState.photon.path.getLast? = some ((0 : ℝ), 0, -1)
    ∧ ((((0 : ℝ), 0, -1) : Vec3).2.2 < 0 ∨ (0 : ℝ) < (((0 : ℝ), 0, -1) : Vec3).2.2)
    ∧ loopBody escMesh rng1 escState 0 =
        some (⟨Photon.mk escState.photon.position escState.photon.direction
                 escState.photon.path escState.photon.weight false,
               escState.profile⟩, 0) :=
  ⟨rfl, rfl, rfl, Or.inl (by norm_num),
   loopBody_escape escMesh rng1 escState 0 0 0 ((0 : ℝ), 0, -1) rfl rfl rfl
     (Or.inl (by norm_num))⟩

/-- Witness for C9 at a photon of weight `1/2`: `check_weight 1` kills it
and `check_weight (1/4)` keeps it; `move`, `scatter`, `absorb` leave
`alive` alone; a fresh photon is alive; and the demo iteration, whose
result is alive, started alive. -/
theorem alive_one_way_witness :
    (((Photon.mk ((0 : ℝ), 0, 0) ((0 : ℝ), 0, 1) [((0 : ℝ), 0, 0)] (1 / 2) true).check_weight
          1).alive = true ↔
      ((Photon.mk ((0 : ℝ), 0, 0) ((0 : ℝ), 0, 1) [((0 : ℝ), 0, 0)]
          (1 / 2) true).alive = true ∧
        ¬ (Photon.mk ((0 : ℝ), 0, 0) ((0 : ℝ), 0, 1) [((0 : ℝ), 0, 0)]
          (1 / 2) true).weight < 1))
    ∧ demoState.photon.alive = true :=
  ⟨alive_one_way.1 (Photon.mk ((0 : ℝ), 0, 0) ((0 : ℝ), 0, 1)
      [((0 : ℝ), 0, 0)] (1 / 2) true) 1,
   alive_one_way.2.2.2.2.2.2 demoMesh demoRng demoState 0
     (⟨Photon.mk ((1 : ℝ), 0, 0) ((0 : ℝ), 0, 1)
         [((1 : ℝ), 0, 0), ((1 : ℝ), 0, 1)] 1 true, [(0 : ℝ)]⟩, 1)
     loopBody_demo rfl⟩

/-- C3 (amended: depth strictly below the last boundary): an interior
iteration samples one fresh draw `u = rng k`, computes the step
`-ln(u)/mu_s` from the scattering coefficient only, moves the photon by
that step, runs the weight check, deposits
`weight_before_rescale * mu_a * step` into `absorption_profile[layer]`,
and only afterwards rescales the weight by the linear factor
`1 - mu_a * step`; exactly one draw is consumed. -/
theorem loopBody_interior_step (mesh : LayeredMesh ℝ) (rng : ℕ → ℝ) (s : SimState)
    (k : ℕ) (pos : Vec3) (b0 bl : ℝ)
    (hsort : mesh._layer_boundaries.Pairwise (· < ·))
    (hlen : mesh._layer_properties.length = mesh._layer_boundaries.length)
    (hprof : s.profile.length = mesh._layer_boundaries.length - 1)
    (hkeys : ∀ d ∈ mesh._layer_properties,
      (dictGet d key_mu_s).isSome ∧ (dictGet d key_mu_a).isSome)
    (hpos : s.photon.path.getLast? = some pos)
    (hb0 : mesh._layer_boundaries.head? = some b0)
    (hbl : mesh._layer_boundaries.getLast? = some bl)
    (hin : b0 ≤ pos.2.2) (hlt : pos.2.2 < bl) :
    ∃ (i : ℕ) (d : PropsDict ℝ) (ms ma : ℝ),
      get_layer_index mesh._layer_boundaries pos.2.2 = (i : Int) ∧
      i < mesh._layer_boundaries.length - 1 ∧
      pyGet mesh._layer_properties (i : Int) = some d ∧
      dictGet d key_mu_s = some ms ∧
      dictGet d key_mu_a = some ma ∧
      loopBody mesh rng s k =
        some (⟨Photon.mk s.photon.position s.photon.direction
                 (s.photon.path ++
                   [pos + (-Real.log (rng k) / ms) • s.photon.direction])
                 (s.photon.weight * (1 - ma * (-Real.log (rng k) / ms)))
                 (if s.photon.weight < 1 / 1000 then false else s.photon.alive),
               s.profile.set i
                 ((s.profile.get? i).getD 0 +
                   s.photon.weight * ma * (-Real.log (rng k) / ms))⟩,
              k + 1) := by
  have hss1 : 1 ≤ searchsorted_right mesh._layer_boundaries pos.2.2 := by
    have := (searchsorted_spec hsort 0 b0 (head?_get? hb0)).mp hin
    omega
  have hssle : searchsorted_right mesh._layer_boundaries pos.2.2 ≤
      mesh._layer_boundaries.length := searchsorted_le_length _ _
  have hssub : searchsorted_right mesh._layer_boundaries pos.2.2 ≤
      mesh._layer_boundaries.length - 1 := by
    by_contra hcon
    have hj := getLast?_get? hbl
    have hcon2 : mesh._layer_boundaries.length - 1 <
        searchsorted_right mesh._layer_boundaries pos.2.2 := by omega
    have := (searchsorted_spec hsort (mesh._layer_boundaries.length - 1) bl hj).mpr hcon2
    exact absurd hlt (not_lt_of_le this)
  obtain ⟨i, hi_def⟩ :
      ∃ i, i = searchsorted_right mesh._layer_boundaries pos.2.2 - 1 := ⟨_, rfl⟩
  have hi_lt : i < mesh._layer_boundaries.length - 1 := by omega
  have hi_len : i < mesh._layer_boundaries.length := by omega
  have hcast : (searchsorted_right mesh._layer_boundaries pos.2.2 : Int) - 1 =
      (i : Int) := by
    omega
  have hgli : get_layer_index mesh._layer_boundaries pos.2.2 = (i : Int) :=
    (get_layer_index_inside hb0 hbl hin (le_of_lt hlt)).trans hcast
  have hi_props : i < mesh._layer_properties.length := by omega
  have hpy : pyGet mesh._layer_properties (i : Int) =
      some (mesh._layer_properties.get ⟨i, hi_props⟩) := by
    rw [pyGet_nonneg_lt _ _ hi_props]
    exact List.get?_eq_get hi_props
  obtain ⟨hs_some, ha_some⟩ := hkeys (mesh._layer_properties.get ⟨i, hi_props⟩)
    (List.get_mem _ _ _)
  obtain ⟨ms, hms⟩ := Option.isSome_iff_exists.mp hs_some
  obtain ⟨ma, hma⟩ := Option.isSome_iff_exists.mp ha_some
  refine ⟨i, mesh._layer_properties.get ⟨i, hi_props⟩, ms, ma, hgli, hi_lt, hpy,
    hms, hma, ?_⟩
  have hnot : ¬ (pos.2.2 < b0 ∨ bl < pos.2.2) := by
    push_neg
    exact ⟨hin, le_of_lt hlt⟩
  have hprof_i : i < s.profile.length := by omega
  have hpyprof : pyGet s.profile (i : Int) = s.profile.get? i :=
    pyGet_nonneg_lt _ _ hprof_i
  have hpyset : pySet s.profile (i : Int)
      ((s.profile.get? i).getD 0 +
        s.photon.weight * ma * (-Real.log (rng k) / ms)) =
      some (s.profile.set i
        ((s.profile.get? i).getD 0 +
          s.photon.weight * ma * (-Real.log (rng k) / ms))) :=
    pySet_nonneg_lt _ _ hprof_i _
  simp only [loopBody, hpos, hb0, hbl]
  rw [if_neg hnot]
  simp only [hgli, hpy, hms, hma, Photon.check_weight_weight, Photon.move_weight,
    hpyprof, hpyset]
  simp only [Photon.check_weight_path, Photon.move_path, Photon.check_weight_alive,
    Photon.move_alive, Photon.move_weight, Photon.check_weight_direction,
    Photon.move_direction, Photon.check_weight_position, Photon.move_position, hpos,
    Option.getD_some]

/-- Counterexample to C3 as stated: the depth `z = 1` of this photon lies
inside the mesh `[0, 1]` in the claim's sense (`b[0] ≤ z ≤ b[n-1]`), yet
the iteration faults (an `IndexError` on
`absorption_profile[get_layer_index z] = absorption_profile[n-1]`, an
array of length `n-1`) instead of depositing. -/
theorem loopBody_interior_step_counterexample :
    edgeState.photon.path.getLast? = some ((0 : ℝ), 0, 1)
    ∧ edgeMesh._layer_boundaries.head? = some 0
    ∧ edgeMesh._layer_boundaries.getLast? = some 1
    ∧ (0 : ℝ) ≤ (((0 : ℝ), 0, 1) : Vec3).2.2
    ∧ (((0 : ℝ), 0, 1) : Vec3).2.2 ≤ 1
    ∧ loopBody edgeMesh rng1 edgeState 0 = none :=
  ⟨rfl, rfl, rfl, by norm_num, by norm_num, loopBody_edge⟩

/-- Witness for C3 at the demo scenario: photon at depth `0` in the mesh
`[0, 10]` with `mu_s = 1`, `mu_a = 0` and draw `exp(-1)`. -/
theorem loopBody_interior_step_witness :
    ∃ (i : ℕ) (d : PropsDict ℝ) (ms ma : ℝ),
      get_layer_index demoMesh._layer_boundaries
          ((((1 : ℝ), 0, 0) : Vec3)).2.2 = (i : Int) ∧
      i < demoMesh._layer_boundaries.length - 1 ∧
      pyGet demoMesh._layer_properties (i : Int) = some d ∧
      dictGet d key_mu_s = some ms ∧
      dictGet d key_mu_a = some ma ∧
      loopBody demoMesh demoRng demoState 0 =
        some (⟨Photon.mk demoState.photon.position demoState.photon.direction
                 (demoState.photon.path ++
                   [(((1 : ℝ), 0, 0) : Vec3) +
                     (-Real.log (demoRng 0) / ms) • demoState.photon.direction])
                 (demoState.photon.weight * (1 - ma * (-Real.log (demoRng 0) / ms)))
                 (if demoState.photon.weight < 1 / 1000 then false
                  else demoState.photon.alive),
               demoState.profile.set i
                 ((demoState.profile.get? i).getD 0 +
                   demoState.photon.weight * ma * (-Real.log (demoRng 0) / ms))⟩,
              0 + 1) :=
  loopBody_interior_step demoMesh demoRng demoState 0 ((1 : ℝ), 0, 0) 0 10
    (by norm_num [demoMesh, List.pairwise_cons]) rfl rfl
    (by
      intro d hd
      have hdd : d = demoProps ∨ d = demoProps := by simpa [demoMesh] using hd
      rcases hdd with rfl | rfl <;>
        exact ⟨by rw [dictGet_demo_mu_s]; rfl, by rw [dictGet_demo_mu_a]; rfl⟩)
    rfl rfl rfl (by norm_num) (by norm_num)

/-- C6 (amended: additionally assuming `mu_a * step ≤ 1` for the sampled
step): a fresh photon's weight is `1.0`, and an iteration under
`mu_a ≥ 0`, `mu_s > 0`, a uniform draw in `(0, 1]` and the rescale bound
keeps the weight in `[0, 1]` and non-increasing.  Without the bound the
linear factor `1 - mu_a * step` can be negative (see the
counterexample). -/
theorem weight_unit_interval :
    (∀ v w : Vec3, (Photon.make v w).weight = 1)
    ∧ (∀ (mesh : LayeredMesh ℝ) (rng : ℕ → ℝ) (s : SimState) (k : ℕ)
        (r : SimState × ℕ),
        loopBody mesh rng s k = some r →
        0 < rng k → rng k ≤ 1 →
        (∀ d ∈ mesh._layer_properties, ∀ ms ma : ℝ,
          dictGet d key_mu_s = some ms → dictGet d key_mu_a = some ma →
          0 ≤ ma ∧ 0 < ms ∧ ma * (-Real.log (rng k) / ms) ≤ 1) →
        0 ≤ s.photon.weight → s.photon.weight ≤ 1 →
        (0 ≤ r.1.photon.weight ∧ r.1.photon.weight ≤ s.photon.weight ∧
          r.1.photon.weight ≤ 1)) := by
  refine ⟨fun v w => rfl, ?_⟩
  intro mesh rng s k r h hu0 hu1 hprops hw0 hw1
  rcases loopBody_inv mesh rng s k r h with
    ⟨pos, b0, bl, _, _, _, _, hr⟩ |
    ⟨pos, b0, bl, d, ms, ma, pr, _, _, _, _, hd, hms, hma, _, hr⟩
  · subst hr
    exact ⟨hw0, le_refl _, hw1⟩
  · subst hr
    simp only [Photon.check_weight_weight, Photon.move_weight]
    obtain ⟨hma0, hms0, hbound⟩ := hprops d (pyGet_mem hd) ms ma hms hma
    have hstep : 0 ≤ -Real.log (rng k) / ms := by
      apply div_nonneg _ (le_of_lt hms0)
      have := Real.log_nonpos (le_of_lt hu0) hu1
      linarith
    have hfac0 : 0 ≤ 1 - ma * (-Real.log (rng k) / ms) := by linarith
    have hfac1 : 1 - ma * (-Real.log (rng k) / ms) ≤ 1 := by
      have := mul_nonneg hma0 hstep
      linarith
    refine ⟨mul_nonneg hw0 hfac0, ?_, ?_⟩
    · exact mul_le_of_le_one_right hw0 hfac1
    · exact le_trans (mul_le_of_le_one_right hw0 hfac1) hw1

/-- Counterexample to C6 as stated: in a mesh whose layers all satisfy
`mu_a = 1 ≥ 0` and `mu_s = 1 > 0`, the draw `u = exp(-2)` gives a step of
`2`, the rescale factor `1 - mu_a * step = -1`, and the trial's photon —
whose weight started at `1.0` — ends the iteration with weight `-1`,
outside `[0, 1]`. -/
theorem weight_unit_interval_counterexample :
    dictGet absProps key_mu_s = some 1
    ∧ dictGet absProps key_mu_a = some 1
    ∧ (0 : ℝ) ≤ 1 ∧ (0 : ℝ) < 1
    ∧ absState.photon.weight = 1
    ∧ (loopBody absMesh absRng absState 0).map (fun r => r.1.photon.weight) =
        some (-1)
    ∧ (-1 : ℝ) < 0 :=
  ⟨dictGet_abs_mu_s, dictGet_abs_mu_a, by norm_num, by norm_num, rfl,
   by rw [loopBody_abs]; rfl, by norm_num⟩

/-- Witness for C6 at the scenario-D escape iteration: the fresh weight
`1` stays `1`, inside `[0, 1]`. -/
theorem weight_unit_interval_witness :
    (Photon.make ((0 : ℝ), 0, -1) ((0 : ℝ), 0, 1)).weight = 1
    ∧ (0 ≤ (⟨Photon.mk ((0 : ℝ), 0, -1) ((0 : ℝ), 0, 1) [((0 : ℝ), 0, -1)] 1 false,
            ([] : List ℝ)⟩ : SimState).photon.weight ∧
       (⟨Photon.mk ((0 : ℝ), 0, -1) ((0 : ℝ), 0, 1) [((0 : ℝ), 0, -1)] 1 false,
            ([] : List ℝ)⟩ : SimState).photon.weight ≤ escState.photon.weight ∧
       (⟨Photon.mk ((0 : ℝ), 0, -1) ((0 : ℝ), 0, 1) [((0 : ℝ), 0, -1)] 1 false,
            ([] : List ℝ)⟩ : SimState).photon.weight ≤ 1) :=
  ⟨weight_unit_interval.1 ((0 : ℝ), 0, -1) ((0 : ℝ), 0, 1),
   weight_unit_interval.2 escMesh rng1 escState 0
     (⟨Photon.mk ((0 : ℝ), 0, -1) ((0 : ℝ), 0, 1) [((0 : ℝ), 0, -1)] 1 false, []⟩, 0)
     loopBody_esc (by norm_num [rng1]) (by norm_num [rng1])
     (by intro d hd; simp [escMesh] at hd) (by norm_num [escState, Photon.make])
     (by norm_num [escState, Photon.make])⟩

end BioMonteCarlo
